import Mathlib

/-!
# Verification of the character-spec schema layer and declaration generator

Shallow embedding of the `@arisutalk/character-spec` repository:

* the schema definition layer (`src/types/v0/**`): zod/valibot validation
  rules are embedded as Lean functions from raw input representations to
  `Option` of validated output values (`none` = validation failure);
* the schema-to-declaration generator (`scripts/generate-types.ts`):
  name derivation, schema extraction, custom-type override resolution and
  the per-module processing loop are embedded with `Except` for the
  script's thrown errors.

JavaScript numbers are modelled as rationals (`ℚ`); `undefined` / absent
object fields are modelled with `Option`.  A JS `Set` over primitive
values uses SameValueZero equality, which on the value representations
used here coincides with structural (decidable) equality, so `size` of
`new Set(list)` is modelled by `List.dedup.length`.
-/

namespace CharacterSpec

/-- A JavaScript primitive value as seen at a leaf position of a schema.
`bytes` stands for a `Uint8Array` instance (its contents as a byte list). -/
inductive JsPrim where
  | str (s : String)
  | num (q : ℚ)
  | jsbool (b : Bool)
  | bytes (bs : List Nat)
deriving DecidableEq

/-! ## Generic validation combinators (zod field modifiers)

`reqField` models a plain required field, `optField` models `.optional()`
(absent stays absent), `defField` models zod v4 `.default(d)` (absent input
short-circuits to the default value without further parsing). -/

def reqField {α β : Type} (v : Option α) (p : α → Option β) : Option β :=
  v.bind p

def optField {α β : Type} (v : Option α) (p : α → Option β) : Option (Option β) :=
  match v with
  | none => some none
  | some x => (p x).map some

def defField {α β : Type} (v : Option α) (p : α → Option β) (d : β) : Option β :=
  match v with
  | none => some d
  | some x => p x

/-- Embeds `z.string()` -/
def parseString : JsPrim → Option String
  | .str s => some s
  | _ => none

/-- Embeds `z.number()` -/
def parseNumber : JsPrim → Option ℚ
  | .num q => some q
  | _ => none

/-- Embeds `z.boolean()` -/
def parseBool : JsPrim → Option Bool
  | .jsbool b => some b
  | _ => none

/-- Embeds `z.literal(lit)` for string literals -/
def parseLiteral (lit : String) : JsPrim → Option String
  | .str s => if s = lit then some s else none
  | _ => none

/-- Embeds `z.array(p)` / `v.array(p)`: element-wise validation, failing if any
element fails. -/
def parseArrayElems {α β : Type} (p : α → Option β) : List α → Option (List β)
  | [] => some []
  | x :: xs => do
    let y ← p x
    let ys ← parseArrayElems p xs
    some (y :: ys)

/-! ## `src/types/v0/utils.ts` -/

/-- The size of `new Set(l)` for a list of primitive-like values
(SameValueZero coincides with decidable equality on our representations). -/
def jsSetSize {α : Type} [DecidableEq α] (l : List α) : Nat :=
  l.dedup.length

/-- Embeds `unique(key)` from `src/types/v0/utils.ts`:
`(i) => new Set(i.map((j) => j[key])).size === i.length`.
`proj` models the property access `j[key]`; when elements may lack the key,
`proj` lands in `Option _` with `none` for the `undefined` read. -/
def unique {α κ : Type} [DecidableEq κ] (proj : α → κ) (l : List α) : Bool :=
  jsSetSize (l.map proj) == l.length

/-- Embeds the `Number.isInteger` test on a JS number, modelled on `ℚ`. -/
def isIntegerQ (q : ℚ) : Bool := q.den == 1

/-- Embeds `Number.MAX_SAFE_INTEGER` (2^53 - 1). -/
def MAX_SAFE_INTEGER : ℤ := 2 ^ 53 - 1

/-- Embeds the `Number.isSafeInteger` test performed by zod v4's `z.int()`
(format `"safeint"`, listed in the generator's number formats): an integer
whose magnitude is at most `Number.MAX_SAFE_INTEGER`. -/
def isSafeIntegerQ (q : ℚ) : Bool :=
  isIntegerQ q && decide (-MAX_SAFE_INTEGER ≤ q.num ∧ q.num ≤ MAX_SAFE_INTEGER)

/-- Embeds `positiveInteger` from `src/types/v0/utils.ts`: `z.int().min(1)`.
A number schema: non-numbers are rejected, then zod v4's safe-integer check
and the inclusive minimum 1 apply. -/
def positiveInteger (v : JsPrim) : Option ℚ :=
  match v with
  | .num q => if isSafeIntegerQ q && decide ((1 : ℚ) ≤ q) then some q else none
  | _ => none

/-! ## `MetaSchema` (Character/Meta.ts) -/

structure RawMeta where
  author : Option JsPrim
  license : Option JsPrim
  version : Option JsPrim
  distributedOn : Option JsPrim
  additionalInfo : Option JsPrim
deriving DecidableEq

structure MetaOut where
  author : Option String
  license : String
  version : Option String
  distributedOn : Option String
  additionalInfo : Option String
deriving DecidableEq

/-- Embeds `MetaSchema`: all fields optional strings except `license`, which is
`z.string().default("ARR")`. -/
def validateMeta (m : RawMeta) : Option MetaOut := do
  let author ← optField m.author parseString
  let license ← defField m.license parseString "ARR"
  let version ← optField m.version parseString
  let distributedOn ← optField m.distributedOn parseString
  let additionalInfo ← optField m.additionalInfo parseString
  some ⟨author, license, version, distributedOn, additionalInfo⟩

/-- The raw input `{}`: every field absent. -/
def emptyRawMeta : RawMeta := ⟨none, none, none, none, none⟩

/-! ## Lorebook, zod generation (`Character/Lorebook.ts`, zod)

`LorebookConditionSchema` is a discriminated union on `type`;
`LorebookEntrySchema` has required `id`; `LorebookDataSchema.data` is
`z.array(LorebookEntrySchema).refine(unique("id")).default([])`. -/

inductive LorebookConditionOut where
  | regexMatch (regexPattern : String) (regexFlags : Option String)
  | plainTextMatch (text : String)
  | always
deriving DecidableEq

structure RawLorebookCondition where
  type : Option JsPrim
  regexPattern : Option JsPrim
  regexFlags : Option JsPrim
  text : Option JsPrim
deriving DecidableEq

def validateZLorebookCondition (c : RawLorebookCondition) : Option LorebookConditionOut :=
  match c.type with
  | some (.str "regex_match") => do
      let p ← reqField c.regexPattern parseString
      let f ← optField c.regexFlags parseString
      some (.regexMatch p f)
  | some (.str "plain_text_match") => do
      let t ← reqField c.text parseString
      some (.plainTextMatch t)
  | some (.str "always") => some .always
  | _ => none

inductive ResolveStrategy where
  | all
  | any
deriving DecidableEq

/-- Embeds `z.enum(["all","any"])` -/
def parseResolveStrategy : JsPrim → Option ResolveStrategy
  | .str "all" => some .all
  | .str "any" => some .any
  | _ => none

structure RawZLorebookEntry where
  id : Option JsPrim
  name : Option JsPrim
  condition : Option (List RawLorebookCondition)
  multipleConditionResolveStrategy : Option JsPrim
  content : Option JsPrim
  priority : Option JsPrim
  enabled : Option JsPrim
deriving DecidableEq

structure ZLorebookEntryOut where
  id : String
  name : String
  condition : List LorebookConditionOut
  multipleConditionResolveStrategy : Option ResolveStrategy
  content : String
  priority : Option ℚ
  enabled : Option Bool
deriving DecidableEq

def validateZLorebookEntry (e : RawZLorebookEntry) : Option ZLorebookEntryOut := do
  let id ← reqField e.id parseString
  let name ← reqField e.name parseString
  let condition ← defField e.condition (parseArrayElems validateZLorebookCondition) []
  let mcrs ← optField e.multipleConditionResolveStrategy parseResolveStrategy
  let content ← reqField e.content parseString
  let priority ← optField e.priority parseNumber
  let enabled ← optField e.enabled parseBool
  some ⟨id, name, condition, mcrs, content, priority, enabled⟩

/-- Embeds `z.array(LorebookEntrySchema).refine(unique("id"), ...)`:
elements are parsed first, then the uniqueness refinement runs on the
parsed array.  A refinement failure fails the whole array; nothing is
deduplicated. -/
def validateZLorebookDataField (l : List RawZLorebookEntry) : Option (List ZLorebookEntryOut) := do
  let parsed ← parseArrayElems validateZLorebookEntry l
  if unique (fun e : ZLorebookEntryOut => e.id) parsed then some parsed else none

structure RawZLbConfig where
  tokenLimit : Option JsPrim
deriving DecidableEq

structure ZLbConfigOut where
  tokenLimit : ℚ
deriving DecidableEq

/-- Embeds `config`: `{ tokenLimit: z.number().int().min(1) }` -/
def validateZLbConfig (c : RawZLbConfig) : Option ZLbConfigOut := do
  let t ← reqField c.tokenLimit positiveInteger
  some ⟨t⟩

structure RawZLorebookData where
  config : Option RawZLbConfig
  data : Option (List RawZLorebookEntry)
deriving DecidableEq

structure ZLorebookDataOut where
  config : ZLbConfigOut
  data : List ZLorebookEntryOut
deriving DecidableEq

/-- Embeds `LorebookDataSchema` (zod generation). -/
def validateZLorebookData (r : RawZLorebookData) : Option ZLorebookDataOut := do
  let config ← reqField r.config validateZLbConfig
  let data ← defField r.data validateZLorebookDataField []
  some ⟨config, data⟩

/-! ## Lorebook, valibot generation (`Lorebook.ts`)

`LorebookEntrySchema` has `id: v.optional(v.string())`;
`condition: v.optional(v.array(v.custom(() => true)))` accepts any array
elements, which are passed through unchanged; `LorebookDataSchema.data`
is `v.optional(v.pipe(v.array(entry), v.check(dup-check)), [])` where the
check is `data.map(i => i.id).length === new Set(data.map(i => i.id)).size`. -/

structure RawVLorebookEntry where
  id : Option JsPrim
  name : Option JsPrim
  condition : Option (List JsPrim)
  multipleConditionResolveStrategy : Option JsPrim
  content : Option JsPrim
  priority : Option JsPrim
  enabled : Option JsPrim
deriving DecidableEq

structure VLorebookEntryOut where
  id : Option String
  name : String
  condition : Option (List JsPrim)
  multipleConditionResolveStrategy : Option ResolveStrategy
  content : String
  priority : Option ℚ
  enabled : Option Bool
deriving DecidableEq

def validateVLorebookEntry (e : RawVLorebookEntry) : Option VLorebookEntryOut := do
  let id ← optField e.id parseString
  let name ← reqField e.name parseString
  let condition ← optField e.condition (fun l => some l)
  let mcrs ← optField e.multipleConditionResolveStrategy parseResolveStrategy
  let content ← reqField e.content parseString
  let priority ← optField e.priority parseNumber
  let enabled ← optField e.enabled parseBool
  some ⟨id, name, condition, mcrs, content, priority, enabled⟩

/-- The inline duplicate-id check of the valibot `LorebookDataSchema`:
`data.map((i) => i.id).length === new Set(data.map((i) => i.id)).size`.
An absent `id` reads as `undefined` (`none`); two absent ids collide. -/
def vLorebookDupCheck (parsed : List VLorebookEntryOut) : Bool :=
  (parsed.map (fun e => e.id)).length == jsSetSize (parsed.map (fun e => e.id))

def validateVLorebookDataField (l : List RawVLorebookEntry) : Option (List VLorebookEntryOut) := do
  let parsed ← parseArrayElems validateVLorebookEntry l
  if vLorebookDupCheck parsed then some parsed else none

structure RawVLorebookData where
  config : Option RawZLbConfig
  data : Option (List RawVLorebookEntry)
deriving DecidableEq

structure VLorebookDataOut where
  config : ZLbConfigOut
  data : List VLorebookEntryOut
deriving DecidableEq

/-- Embeds `LorebookDataSchema` (valibot generation): `config` required with
`tokenLimit: v.pipe(v.number(), v.integer(), v.minValue(1))`; `data`
optional with default `[]`. -/
def validateVLorebookData (r : RawVLorebookData) : Option VLorebookDataOut := do
  let config ← reqField r.config validateZLbConfig
  let data ← defField r.data validateVLorebookDataField []
  some ⟨config, data⟩

/-! ## ReplaceHook (`Executables/ReplaceHook.ts`, zod) -/

inductive RHPattern where
  | regex (flag : String)
  | stringPat (caseSensitive : Bool)
deriving DecidableEq

structure RawReplaceHookMeta where
  type : Option JsPrim
  flag : Option JsPrim
  caseSensitive : Option JsPrim
  isInputPatternScripted : Option JsPrim
  isOutputScripted : Option JsPrim
  priority : Option JsPrim
deriving DecidableEq

structure ReplaceHookMetaOut where
  pattern : RHPattern
  isInputPatternScripted : Bool
  isOutputScripted : Bool
  priority : ℚ
deriving DecidableEq

/-- Embeds `ReplaceHookMetaSchema = z.intersection(z.discriminatedUnion("type", [regex, string]), z.object({...defaults...}))`:
both sides parse the same input and the results are merged. -/
def validateReplaceHookMeta (m : RawReplaceHookMeta) : Option ReplaceHookMetaOut := do
  let pattern ← match m.type with
    | some (.str "regex") => (reqField m.flag parseString).map RHPattern.regex
    | some (.str "string") => (defField m.caseSensitive parseBool true).map RHPattern.stringPat
    | _ => none
  let iip ← defField m.isInputPatternScripted parseBool false
  let ios ← defField m.isOutputScripted parseBool false
  let priority ← defField m.priority parseNumber 0
  some ⟨pattern, iip, ios, priority⟩

structure RawReplaceHookEntity where
  input : Option JsPrim
  meta : Option RawReplaceHookMeta
  output : Option JsPrim
deriving DecidableEq

structure ReplaceHookEntityOut where
  input : String
  meta : ReplaceHookMetaOut
  output : String
deriving DecidableEq

def validateReplaceHookEntity (e : RawReplaceHookEntity) : Option ReplaceHookEntityOut := do
  let i ← reqField e.input parseString
  let m ← reqField e.meta validateReplaceHookMeta
  let o ← reqField e.output parseString
  some ⟨i, m, o⟩

structure RawReplaceHook where
  display : Option (List RawReplaceHookEntity)
  input : Option (List RawReplaceHookEntity)
  output : Option (List RawReplaceHookEntity)
  request : Option (List RawReplaceHookEntity)
deriving DecidableEq

structure ReplaceHookOut where
  display : List ReplaceHookEntityOut
  input : List ReplaceHookEntityOut
  output : List ReplaceHookEntityOut
  request : List ReplaceHookEntityOut
deriving DecidableEq

/-- Embeds `ReplaceHookSchema`: as written in `Executables/ReplaceHook.ts` each of
the four fields is `z.array(ReplaceHookEntitySchema)` with no `.default`,
hence required. -/
def validateReplaceHook (r : RawReplaceHook) : Option ReplaceHookOut := do
  let d ← reqField r.display (parseArrayElems validateReplaceHookEntity)
  let i ← reqField r.input (parseArrayElems validateReplaceHookEntity)
  let o ← reqField r.output (parseArrayElems validateReplaceHookEntity)
  let q ← reqField r.request (parseArrayElems validateReplaceHookEntity)
  some ⟨d, i, o, q⟩

/-- The raw input `{}` for `ReplaceHookSchema`. -/
def emptyRawReplaceHook : RawReplaceHook := ⟨none, none, none, none⟩

/-! ## Message and Chat (`Character/Message.ts`, `Character/Chat.ts`, zod)

URL syntax checking (`z.url()`) is delegated to the platform URL parser;
it is modelled as an explicit parameter `urlOk`.  The dynamic defaults
`z.number().default(Date.now)` on `timestamp` / `createdAt` / `updatedAt`
call `Date.now()` at validation time; the clock reading during a
validation call is modelled as the explicit parameter `now`. -/

inductive Role where
  | user
  | assistant
  | system
deriving DecidableEq

/-- Embeds `z.enum(["user","assistant","system"])` -/
def parseRole : JsPrim → Option Role
  | .str "user" => some .user
  | .str "assistant" => some .assistant
  | .str "system" => some .system
  | _ => none

inductive FileVal where
  | url (s : String)
  | bin (bs : List Nat)
deriving DecidableEq

/-- Embeds `FileSchema = z.union([ImageURLSchema, Uint8ArraySchema])`: a string
accepted by the URL check, or a `Uint8Array` instance. -/
def parseFile (urlOk : String → Bool) : JsPrim → Option FileVal
  | .str s => if urlOk s then some (.url s) else none
  | .bytes bs => some (.bin bs)
  | _ => none

structure RawAssetEntity where
  mimeType : Option JsPrim
  name : Option JsPrim
  data : Option JsPrim
deriving DecidableEq

structure AssetEntityOut where
  mimeType : String
  name : String
  data : FileVal
deriving DecidableEq

/-- Embeds `AssetEntitySchema` (the `FileSchema`-based generation in
`Character/Assets.ts`, imported by `Character/Message.ts`). -/
def validateAssetEntity (urlOk : String → Bool) (a : RawAssetEntity) : Option AssetEntityOut := do
  let m ← reqField a.mimeType parseString
  let n ← reqField a.name parseString
  let d ← reqField a.data (parseFile urlOk)
  some ⟨m, n, d⟩

structure RawMessageContent where
  type : Option JsPrim
  data : Option JsPrim
  mimeType : Option JsPrim
deriving DecidableEq

inductive MessageContentOut where
  | text (data : String)
  | file (data : FileVal) (mimeType : String)
deriving DecidableEq

/-- The `content` discriminated union of `MessageSchema`. -/
def validateMessageContent (urlOk : String → Bool) (c : RawMessageContent) :
    Option MessageContentOut :=
  match c.type with
  | some (.str "text") => (reqField c.data parseString).map MessageContentOut.text
  | some (.str "file") => do
      let d ← reqField c.data (parseFile urlOk)
      let m ← reqField c.mimeType parseString
      some (.file d m)
  | _ => none

structure RawMessage where
  id : Option JsPrim
  chatId : Option JsPrim
  role : Option JsPrim
  content : Option RawMessageContent
  timestamp : Option JsPrim
  inlays : Option (List RawAssetEntity)
deriving DecidableEq

structure MessageOut where
  id : String
  chatId : String
  role : Role
  content : MessageContentOut
  timestamp : ℚ
  inlays : List AssetEntityOut
deriving DecidableEq

/-- Embeds `MessageSchema` (`Character/Message.ts`): `timestamp` is
`z.number().default(Date.now)`, `inlays` is
`z.array(AssetEntitySchema).refine(unique("name")).default([])`. -/
def validateMessage (urlOk : String → Bool) (now : ℚ) (m : RawMessage) : Option MessageOut := do
  let id ← reqField m.id parseString
  let chatId ← reqField m.chatId parseString
  let role ← reqField m.role parseRole
  let content ← reqField m.content (validateMessageContent urlOk)
  let timestamp ← defField m.timestamp parseNumber now
  let inlays ← defField m.inlays (fun l => do
      let parsed ← parseArrayElems (validateAssetEntity urlOk) l
      if unique (fun a : AssetEntityOut => a.name) parsed then some parsed else none) []
  some ⟨id, chatId, role, content, timestamp, inlays⟩

structure RawChat where
  id : Option JsPrim
  characterId : Option JsPrim
  messages : Option (List RawMessage)
  title : Option JsPrim
  createdAt : Option JsPrim
  updatedAt : Option JsPrim
  lorebook : Option (List RawZLorebookEntry)
deriving DecidableEq

structure ChatOut where
  id : String
  characterId : String
  messages : List MessageOut
  title : String
  createdAt : ℚ
  updatedAt : ℚ
  lorebook : Option (List ZLorebookEntryOut)
deriving DecidableEq

/-- Embeds `ChatSchema` (`Character/Chat.ts`, zod): `messages` is
`z.array(MessageSchema).refine(unique("id"))`; `title` defaults to
`"Chat"`; `createdAt`/`updatedAt` default to `Date.now`; `lorebook` is
`LorebookDataSchema.shape.data.optional()` (absent stays absent). -/
def validateChat (urlOk : String → Bool) (now : ℚ) (c : RawChat) : Option ChatOut := do
  let id ← reqField c.id parseString
  let characterId ← reqField c.characterId parseString
  let messages ← reqField c.messages (fun l => do
      let parsed ← parseArrayElems (validateMessage urlOk now) l
      if unique (fun m : MessageOut => m.id) parsed then some parsed else none)
  let title ← defField c.title parseString "Chat"
  let createdAt ← defField c.createdAt parseNumber now
  let updatedAt ← defField c.updatedAt parseNumber now
  let lorebook ← optField c.lorebook validateZLorebookDataField
  some ⟨id, characterId, messages, title, createdAt, updatedAt, lorebook⟩

/-! ## Concrete inputs used by witnesses and counterexamples -/

/-- A concrete stand-in for the platform URL checker. -/
def urlAlways : String → Bool := fun _ => true

/-- A shape-valid message input that omits the defaulted `timestamp`. -/
def msgNoTs : RawMessage :=
  ⟨some (.str "m1"), some (.str "c1"), some (.str "user"),
    some ⟨some (.str "text"), some (.str "hi"), none⟩, none, none⟩

/-- The same message input with `timestamp` supplied. -/
def msgTs : RawMessage :=
  ⟨some (.str "m1"), some (.str "c1"), some (.str "user"),
    some ⟨some (.str "text"), some (.str "hi"), none⟩, some (.num 42), none⟩

/-- A chat input supplying `createdAt`, `updatedAt`, and messages that all
supply `timestamp`. -/
def chatTs : RawChat :=
  ⟨some (.str "ch1"), some (.str "char1"), some [msgTs], some (.str "T"),
    some (.num 1), some (.num 2), none⟩

def zEntryA : RawZLorebookEntry :=
  ⟨some (.str "a"), some (.str "A"), none, none, some (.str "ca"), none, none⟩

def zEntryB : RawZLorebookEntry :=
  ⟨some (.str "b"), some (.str "B"), none, none, some (.str "cb"), none, none⟩

def zLorebookW : RawZLorebookData :=
  ⟨some ⟨some (.num 5)⟩, some [zEntryA, zEntryB]⟩

def zParsedW : List ZLorebookEntryOut :=
  [⟨"a", "A", [], none, "ca", none, none⟩, ⟨"b", "B", [], none, "cb", none, none⟩]

/-- A valibot lorebook entry that omits its optional `id`. -/
def vEntryNoId1 : RawVLorebookEntry :=
  ⟨none, some (.str "first"), none, none, some (.str "c1"), none, none⟩

def vEntryNoId2 : RawVLorebookEntry :=
  ⟨none, some (.str "second"), none, none, some (.str "c2"), none, none⟩

/-- A valibot `LorebookData` input whose `data` holds two entries that both
lack `id`. -/
def vNoIdLorebookW : RawVLorebookData :=
  ⟨some ⟨some (.num 5)⟩, some [vEntryNoId1, vEntryNoId2]⟩

/-! ## Declaration generator (`scripts/generate-types.ts`)

The generator consumes live schema objects; its thrown `Error`s are
modelled structurally by `GenError` (the thrown message strings are built
from exactly the data the constructors carry). -/

def SCHEMA_EXPORT_SUFFIX : String := "Schema"

def RESERVED_TYPE_NAMES : List String :=
  ["Uint8Array", "File", "Blob", "ArrayBuffer", "Date", "Map", "Set", "Promise", "Error"]

def isTsIdentStartChar (c : Char) : Bool := c.isAlpha || c = '_' || c = '$'

def isTsIdentOtherChar (c : Char) : Bool := c.isAlphanum || c = '_' || c = '$'

/-- The regex `^[A-Za-z_$][A-Za-z0-9_$]*$` of `ensureValidTsIdentifier`. -/
def isValidTsIdentifier (s : String) : Bool :=
  match s.data with
  | [] => false
  | c :: cs => isTsIdentStartChar c && cs.all isTsIdentOtherChar

/-- Embeds `base.charAt(0).toUpperCase() + base.slice(1)` (ASCII semantics). -/
def jsUpperFirst (s : String) : String :=
  match s.data with
  | [] => ""
  | c :: cs => String.mk (c.toUpper :: cs)

/-- Embeds `String.prototype.endsWith`, computed on the character list. -/
def jsEndsWith (s suffix : String) : Bool :=
  decide (s.data.drop (s.data.length - suffix.data.length) = suffix.data)

/-- Embeds `String.prototype.slice(0, -n)`, computed on the character list. -/
def jsDropRight (s : String) (n : Nat) : String :=
  String.mk (s.data.take (s.data.length - n))

/-- Embeds `String.prototype.trim`: strip whitespace from both ends. -/
def jsTrim (s : String) : String :=
  String.mk (((s.data.dropWhile Char.isWhitespace).reverse.dropWhile Char.isWhitespace).reverse)

/-- The suffix strip of `deriveTypeName`:
`endsWith(suffix) ? slice(0, -suffix.length) : unchanged`. -/
def stripSchemaSuffix (s : String) : String :=
  if jsEndsWith s SCHEMA_EXPORT_SUFFIX then jsDropRight s SCHEMA_EXPORT_SUFFIX.data.length else s

/-- The generator's fatal errors, carrying the data interpolated into the
thrown message. -/
inductive GenError where
  | emptyExportName
  | emptyAfterStrip (exportName : String)
  | invalidIdentifier (derivedName exportName : String)
  | notAZodSchema (fileContext exportName : String)
  | duplicateTypeName (fileContext typeName : String)
  | unsupportedCustomSchema (context : String)
deriving DecidableEq

/-- Embeds `deriveTypeName` from `scripts/generate-types.ts`: reject the empty
export name, strip the `"Schema"` suffix, reject an empty remainder,
upper-case the first letter, disambiguate reserved platform type names with
a `"Type"` suffix, and otherwise require a valid TS identifier. -/
def deriveTypeName (schemaExportName : String) : Except GenError String :=
  if schemaExportName = "" then .error .emptyExportName
  else
    let stripped := stripSchemaSuffix schemaExportName
    if stripped = "" then .error (.emptyAfterStrip schemaExportName)
    else
      let base := jsUpperFirst stripped
      if base ∈ RESERVED_TYPE_NAMES then .ok (base ++ "Type")
      else if isValidTsIdentifier base then .ok base
      else .error (.invalidIdentifier base schemaExportName)

structure SchemaEntry where
  typeName : String
  exportName : String
deriving DecidableEq

/-- The export loop of `extractSchemasOrThrow`: exports are pairs of name
and `value instanceof ZodType`; names without the `"Schema"` suffix are
skipped, a suffixed non-schema export throws, otherwise the type name is
derived (which may itself throw). -/
def extractEntriesLoop (fileContext : String) :
    List (String × Bool) → Except GenError (List SchemaEntry)
  | [] => .ok []
  | (exportName, isZod) :: rest =>
    if jsEndsWith exportName SCHEMA_EXPORT_SUFFIX then
      if isZod then
        match deriveTypeName exportName with
        | .error e => .error e
        | .ok typeName =>
          match extractEntriesLoop fileContext rest with
          | .error e => .error e
          | .ok tail => .ok (⟨typeName, exportName⟩ :: tail)
      else .error (.notAZodSchema fileContext exportName)
    else extractEntriesLoop fileContext rest

/-- Embeds `entries.sort((a, b) => a.exportName.localeCompare(b.exportName))`,
modelled as a sort by export name. -/
def sortEntries (l : List SchemaEntry) : List SchemaEntry :=
  List.insertionSort (fun a b => a.exportName ≤ b.exportName) l

/-- The duplicate-type-name pass of `extractSchemasOrThrow` (`seen` models
the JS `Set`, membership models `Set.has`). -/
def checkDupLoop (fileContext : String) :
    List SchemaEntry → List String → Except GenError Unit
  | [], _ => .ok ()
  | e :: rest, seen =>
    if e.typeName ∈ seen then .error (.duplicateTypeName fileContext e.typeName)
    else checkDupLoop fileContext rest (e.typeName :: seen)

def extractSchemasOrThrow (exports : List (String × Bool)) (fileContext : String) :
    Except GenError (List SchemaEntry) :=
  match extractEntriesLoop fileContext exports with
  | .error e => .error e
  | .ok entries =>
    let sorted := sortEntries entries
    match checkDupLoop fileContext sorted [] with
    | .error e => .error e
    | .ok _ => .ok sorted

/-! ### Custom-schema type-override resolution -/

/-- A JS constructor function as compared by identity in the generator. -/
inductive JsCtor where
  | uint8ArrayCtor
  | arrayBufferCtor
  | dateCtor
  | otherCtor (name : String)
deriving DecidableEq

def ctorName : JsCtor → String
  | .uint8ArrayCtor => "Uint8Array"
  | .arrayBufferCtor => "ArrayBuffer"
  | .dateCtor => "Date"
  | .otherCtor n => n

/-- Embeds `String.prototype.includes` -/
def jsIncludes (hay needle : String) : Bool :=
  decide (List.IsInfix needle.data hay.data)

/-- The observations the generator makes of an opaque predicate function:
its boolean outcome on each sample value the script feeds it (`none`
models a thrown exception, caught by the script), plus its source text
(`fn.toString()`). -/
structure PredObs where
  onUint8ArraySample : Option Bool
  onArrayBufferSample : Option Bool
  onDateSample : Option Bool
  onEmptyObject : Option Bool
  onNull : Option Bool
  onNonMatchingString : Option Bool
  src : String
deriving DecidableEq

/-- One element of `def.checks`: `kind` models
`check.kind ?? check.type ?? check.check` and `cls` models
`check.cls ?? check.class ?? check.ctor ?? check.instanceof`. -/
structure CheckDesc where
  kind : Option String
  cls : Option JsCtor
deriving DecidableEq

/-- A `ZodCustom`-like schema's fields inspected by the generator:
`meta.tsType` (string case), `def.checks`, `def.cls`, and the candidate
predicate locations `def.fn` / `def.check` / `def.predicate`. -/
structure CustomSchemaDesc where
  tsType : Option String
  checks : List CheckDesc
  cls : Option JsCtor
  fnF : Option PredObs
  checkF : Option PredObs
  predicateF : Option PredObs
deriving DecidableEq

/-- A schema node as classified by `buildOverridesOrThrow`:
format-tagged string/number schemas, custom schemas, anything else. -/
inductive SchemaNode where
  | stringFormat (format : String)
  | numberFormat (format : String)
  | custom (d : CustomSchemaDesc)
  | plain
deriving DecidableEq

/-- A generated `ts.TypeNode` (abstractly: what the node denotes). -/
inductive TypeNodeModel where
  | parsedTsType (src : String)
  | typeRef (name : String)
  | stringKeyword
  | numberKeyword
deriving DecidableEq

def STRING_FORMATS : List String :=
  ["url", "email", "uuid", "cuid", "cuid2", "ulid", "datetime", "date", "time",
   "duration", "ip", "cidr", "base64", "base64url", "nanoid", "jwt"]

def NUMBER_FORMATS : List String :=
  ["safeint", "int32", "uint32", "float32", "float64"]

/-- Embeds `getFormatBasedType`: format-tagged primitives render as their
underlying primitive type. -/
def getFormatBasedType : SchemaNode → Option TypeNodeModel
  | .stringFormat f => if f ∈ STRING_FORMATS then some .stringKeyword else none
  | .numberFormat f => if f ∈ NUMBER_FORMATS then some .numberKeyword else none
  | _ => none

/-- Embeds `getCustomPredicate`: `def.fn ?? def.check ?? def.predicate`. -/
def getCustomPredicate (d : CustomSchemaDesc) : Option PredObs :=
  (d.fnF <|> d.checkF) <|> d.predicateF

def obsOnSample (p : PredObs) : JsCtor → Option Bool
  | .uint8ArrayCtor => p.onUint8ArraySample
  | .arrayBufferCtor => p.onArrayBufferSample
  | .dateCtor => p.onDateSample
  | .otherCtor _ => none

def KNOWN_CTORS : List JsCtor := [.uint8ArrayCtor, .arrayBufferCtor, .dateCtor]

/-- Embeds `matchesInstanceofViaDefChecks`. -/
def matchesInstanceofViaDefChecks (d : CustomSchemaDesc) (ctor : JsCtor) : Bool :=
  d.checks.any (fun c => decide (c.kind = some "instanceof") && decide (c.cls = some ctor))

/-- One iteration of `detectInstanceofClass`'s probing loop:
`pred(sample) === true && !pred({}) && !pred(null)` inside a `try`
(a throw skips the candidate). -/
def detectProbeOk (p : PredObs) (ctor : JsCtor) : Bool :=
  decide (obsOnSample p ctor = some true) && decide (p.onEmptyObject = some false) &&
    decide (p.onNull = some false)

/-- The last-resort source-text test of `detectInstanceofClass`:
`fnStr.includes(ctor.name) || fnStr.includes("instanceof")`. -/
def fnStrMatches (srcStr : String) (ctor : JsCtor) : Bool :=
  jsIncludes srcStr (ctorName ctor) || jsIncludes srcStr "instanceof"

/-- Embeds `detectInstanceofClass`: the stored `def.cls` class reference wins;
otherwise probe the predicate on the known constructors' samples;
otherwise match the predicate's source text. -/
def detectInstanceofClass (d : CustomSchemaDesc) : Option JsCtor :=
  match d.cls with
  | some c => some c
  | none =>
    match getCustomPredicate d with
    | none => none
    | some p =>
      match KNOWN_CTORS.find? (detectProbeOk p) with
      | some ctor => some ctor
      | none =>
        match d.fnF with
        | some fnObs => KNOWN_CTORS.find? (fnStrMatches fnObs.src)
        | none => none

/-- Embeds `parseTypeNodeFromString` delegates to the TypeScript compiler; the
parse is modelled as succeeding. -/
def parseTypeNodeFromString (typeText : String) : TypeNodeModel :=
  .parsedTsType typeText

/-- The explicit-override head of `getCustomOverrideTypeNode`:
`typeof meta.tsType === "string" && meta.tsType.trim()`. -/
def tsTypeOverride (d : CustomSchemaDesc) : Option TypeNodeModel :=
  match d.tsType with
  | some t => if jsTrim t = "" then none else some (parseTypeNodeFromString (jsTrim t))
  | none => none

/-- Embeds `okSample` of the fallback probe: `Boolean(pred(sample))`, `false` on
throw. -/
def probeOkSample (p : PredObs) (ctor : JsCtor) : Bool :=
  (obsOnSample p ctor).getD false

/-- Embeds `okRejects` of the fallback probe:
`!pred({}) && !pred(null) && !pred("not-a-match")`, `false` on throw. -/
def probeOkRejects (p : PredObs) : Bool :=
  decide (p.onEmptyObject = some false) && decide (p.onNull = some false) &&
    decide (p.onNonMatchingString = some false)

/-- The fallback sample-probing loop of `getCustomOverrideTypeNode`
(candidates `Uint8Array` and `ArrayBuffer`). -/
def probeOverride (p : PredObs) : Option TypeNodeModel :=
  (([(JsCtor.uint8ArrayCtor, "Uint8Array"), (JsCtor.arrayBufferCtor, "ArrayBuffer")] :
      List (JsCtor × String)).find?
    (fun c => probeOkSample p c.1 && probeOkRejects p)).map
    (fun c => TypeNodeModel.typeRef c.2)

/-- Embeds `getCustomOverrideTypeNode`: explicit `tsType` wins; then the stored
check descriptors; then `detectInstanceofClass`; then the fallback probe;
`none` if all fail. -/
def getCustomOverrideTypeNode (d : CustomSchemaDesc) : Option TypeNodeModel :=
  match tsTypeOverride d with
  | some t => some t
  | none =>
    if matchesInstanceofViaDefChecks d .uint8ArrayCtor then some (.typeRef "Uint8Array")
    else if matchesInstanceofViaDefChecks d .arrayBufferCtor then some (.typeRef "ArrayBuffer")
    else
      match detectInstanceofClass d with
      | some .uint8ArrayCtor => some (.typeRef "Uint8Array")
      | some .arrayBufferCtor => some (.typeRef "ArrayBuffer")
      | some .dateCtor => some (.typeRef "Date")
      | _ =>
        match getCustomPredicate d with
        | some p => probeOverride p
        | none => none

/-- The refinement heuristic of `buildOverridesOrThrow`: no `instanceof`
in the predicate source, but a strict comparison or a `.size` / `.length`
access. -/
def isLikelyRefinement (p : PredObs) : Bool :=
  !(jsIncludes p.src "instanceof") &&
    (jsIncludes p.src "===" || jsIncludes p.src "!==" ||
      jsIncludes p.src ".size" || jsIncludes p.src ".length")

/-- One schema's treatment inside `buildOverridesOrThrow`: format-based
override; else for a custom schema the override cascade, the
validation-only skip (`.ok none`), or the fatal
"unsupported custom schema, supply an explicit override" error. -/
def resolveNodeOverride (context : String) (n : SchemaNode) :
    Except GenError (Option TypeNodeModel) :=
  match getFormatBasedType n with
  | some t => .ok (some t)
  | none =>
    match n with
    | .custom d =>
      match getCustomOverrideTypeNode d with
      | some t => .ok (some t)
      | none =>
        match getCustomPredicate d with
        | some p =>
          if isLikelyRefinement p then .ok none
          else .error (.unsupportedCustomSchema context)
        | none => .error (.unsupportedCustomSchema context)
    | _ => .ok none

/-- Embeds `buildOverridesOrThrow` over the module's collected schema nodes. -/
def buildOverridesOrThrow (context : String) :
    List SchemaNode → Except GenError (List (Option TypeNodeModel))
  | [] => .ok []
  | n :: rest =>
    match resolveNodeOverride context n with
    | .error e => .error e
    | .ok o =>
      match buildOverridesOrThrow context rest with
      | .error e => .error e
      | .ok os => .ok (o :: os)

/-! ### The per-module processing loop of `main` -/

/-- A discovered source module: its path, its exported bindings as
(name, `value instanceof ZodType`) pairs in `Object.entries` order, and
the schema nodes `collectAllSchemasFromModuleExports` finds in it. -/
structure ModuleDesc where
  path : String
  exports : List (String × Bool)
  customNodes : List SchemaNode
deriving DecidableEq

/-- The body of `main`'s loop for one module: extract schema entries
(throws propagate), skip output when the module has no schemas, otherwise
build overrides (throws propagate) and emit the module's declaration
file. -/
def processModule (m : ModuleDesc) : Except GenError (List SchemaEntry) :=
  match extractSchemasOrThrow m.exports m.path with
  | .error e => .error e
  | .ok entries =>
    if entries.isEmpty then .ok entries
    else
      match buildOverridesOrThrow ("module " ++ m.path) m.customNodes with
      | .error e => .error e
      | .ok _ => .ok entries

/-- Embeds `main`'s sequential loop: each successfully processed module with
schemas has its declaration file written before the next module is
handled; the first error aborts the run.  The result is the list of
module paths whose declaration files were written, and the aborting
error, if any. -/
def processRun : List ModuleDesc → List String × Option GenError
  | [] => ([], none)
  | m :: rest =>
    match processModule m with
    | .error e => ([], some e)
    | .ok entries =>
      let res := processRun rest
      if entries.isEmpty then res else (m.path :: res.1, res.2)

/-! ### Concrete generator inputs -/

/-- A well-formed module whose path sorts before `badModule`'s in `main`'s
lexicographic source order. -/
def goodModule : ModuleDesc := ⟨"v0/Assets.ts", [("GoodSchema", true)], []⟩

def badModule : ModuleDesc := ⟨"v0/Broken.ts", [("BadSchema", false)], []⟩

/-- Observations of the predicate `(v) => v instanceof WeakMap`: it rejects
every sample the generator feeds it, and its source text contains
`instanceof`. -/
def wkObs : PredObs :=
  ⟨some false, some false, some false, some false, some false, some false,
    "(v) => v instanceof WeakMap"⟩

def wkDesc : CustomSchemaDesc := ⟨none, [], none, some wkObs, none, none⟩

/-- A custom schema carrying an explicit `tsType` override. -/
def tsTypeDesc : CustomSchemaDesc :=
  ⟨some " Uint8Array ", [], none, some wkObs, none, none⟩

/-! ## Basic lemmas -/

theorem jsSetSize_eq_length_iff {α : Type} [DecidableEq α] (l : List α) :
    jsSetSize l = l.length ↔ l.Nodup := by
  constructor
  · intro h
    have hsub : l.dedup.Sublist l := l.dedup_sublist
    have heq : l.dedup = l := hsub.eq_of_length h
    rw [← heq]
    exact l.nodup_dedup
  · intro h
    rw [jsSetSize, List.dedup_eq_self.mpr h]

theorem unique_eq_true_iff {α κ : Type} [DecidableEq κ] (proj : α → κ) (l : List α) :
    unique proj l = true ↔ (l.map proj).Nodup := by
  rw [unique, beq_iff_eq]
  rw [show l.length = (l.map proj).length from (List.length_map l proj).symm]
  exact jsSetSize_eq_length_iff (l.map proj)

/-! ## Claim theorems (first batch) -/

/-- C4 counterexample: `2^53 = 9007199254740992` is an exactly-representable
JS number that is an integer ≥ 1 (first two conjuncts exhibit it as the cast
of an integer ≥ 1), yet `positiveInteger` rejects it: zod v4's `z.int()`
restricts to safe integers, so the claim "every integer ≥ 1 is accepted"
fails at this input. -/
theorem positiveInteger_unsafe_integer_counterexample :
    (1 : ℤ) ≤ 9007199254740992 ∧
    ((9007199254740992 : ℤ) : ℚ) = (9007199254740992 : ℚ) ∧
    positiveInteger (.num (9007199254740992 : ℚ)) = none := by
  refine ⟨by norm_num, by norm_num, ?_⟩
  have hden : ((9007199254740992 : ℚ)).den = 1 := by norm_num
  have hnum : ((9007199254740992 : ℚ)).num = 9007199254740992 := by norm_num
  have hout : ((9007199254740992 : ℚ)).num ≤ MAX_SAFE_INTEGER ↔ False := by
    rw [hnum, MAX_SAFE_INTEGER]
    norm_num
  simp [positiveInteger, isSafeIntegerQ, isIntegerQ, hden, hout]
  intro _
  rw [MAX_SAFE_INTEGER]
  norm_num

/-- C4 amended: `positiveInteger` accepts an input value iff it is a safe
integer ≥ 1, that is, an integer `n` with `1 ≤ n ≤ 2^53 - 1`
(`Number.MAX_SAFE_INTEGER`); 0, negative integers, non-integer numbers,
non-numbers, and integers above the safe range are rejected. -/
theorem positiveInteger_accepts_iff (v : JsPrim) :
    (positiveInteger v).isSome = true ↔
      ∃ n : ℤ, 1 ≤ n ∧ n ≤ MAX_SAFE_INTEGER ∧ v = .num (n : ℚ) := by
  constructor
  · intro h
    match v with
    | .str s => simp [positiveInteger] at h
    | .jsbool b => simp [positiveInteger] at h
    | .bytes bs => simp [positiveInteger] at h
    | .num q =>
      rw [positiveInteger] at h
      by_cases hc : isSafeIntegerQ q && decide ((1 : ℚ) ≤ q)
      · have hsafe := (Bool.and_eq_true _ _).mp hc |>.1
        have hge : (1 : ℚ) ≤ q := by
          have := (Bool.and_eq_true _ _).mp hc |>.2
          simpa using this
        have hint : q.den = 1 := by
          have := (Bool.and_eq_true _ _).mp hsafe |>.1
          simpa [isIntegerQ] using this
        have hrange : -MAX_SAFE_INTEGER ≤ q.num ∧ q.num ≤ MAX_SAFE_INTEGER := by
          have := (Bool.and_eq_true _ _).mp hsafe |>.2
          simpa using this
        refine ⟨q.num, ?_, hrange.2, ?_⟩
        · have hq : (q.num : ℚ) = q := Rat.den_eq_one_iff q |>.mp hint
          rw [← hq] at hge
          exact_mod_cast hge
        · have hq : (q.num : ℚ) = q := Rat.den_eq_one_iff q |>.mp hint
          rw [hq]
      · simp [hc] at h
  · rintro ⟨n, hn, hsafe, rfl⟩
    have hden : ((n : ℚ)).den = 1 := Rat.intCast_den n
    have hnum : ((n : ℚ)).num = n := Rat.intCast_num n
    have hge : (1 : ℚ) ≤ (n : ℚ) := by exact_mod_cast hn
    have hlow : -MAX_SAFE_INTEGER ≤ n := by
      have hpos : (0 : ℤ) < MAX_SAFE_INTEGER := by norm_num [MAX_SAFE_INTEGER]
      omega
    simp [positiveInteger, isSafeIntegerQ, isIntegerQ, hden, hnum, hge, hsafe, hlow]

/-- C5: validating `{}` against `MetaSchema` succeeds, yields
`license = "ARR"` and leaves every other field absent. -/
theorem metaSchema_empty_defaults :
    validateMeta emptyRawMeta = some ⟨none, "ARR", none, none, none⟩ := by
  rfl

theorem parseArrayElems_length {α β : Type} (p : α → Option β) :
    ∀ (l : List α) (out : List β), parseArrayElems p l = some out → out.length = l.length := by
  intro l
  induction l with
  | nil =>
    intro out h
    simp only [parseArrayElems, Option.some.injEq] at h
    simp [← h]
  | cons x xs ih =>
    intro out h
    rw [parseArrayElems] at h
    cases hpx : p x with
    | none => simp [hpx] at h
    | some y =>
      cases hxs : parseArrayElems p xs with
      | none => simp [hpx, hxs] at h
      | some ys =>
        simp only [hpx, hxs, Option.bind_eq_bind, Option.some_bind,
          Option.some.injEq] at h
        subst h
        simp [ih ys hxs]

/-- C1: for `LorebookData`, the duplicate-`id` constraint fails validation
iff two entries share an `id` value, and duplicates are never silently
removed (on success the validated `data` array is the element-wise parse
of the input array, same length).  First conjunct: the zod generation
(`unique("id")` refinement, required string ids); second conjunct: the
valibot generation (inline set-size check, optional ids). -/
theorem lorebookData_duplicate_id_validation :
    (∀ (r : RawZLorebookData) (cfg : ZLbConfigOut) (dl : List RawZLorebookEntry)
        (parsed : List ZLorebookEntryOut),
       reqField r.config validateZLbConfig = some cfg →
       r.data = some dl →
       parseArrayElems validateZLorebookEntry dl = some parsed →
       (((validateZLorebookData r).isSome = true) ↔ (parsed.map (fun e => e.id)).Nodup) ∧
       (∀ out, validateZLorebookData r = some out →
          out.data = parsed ∧ out.data.length = dl.length)) ∧
    (∀ (r : RawVLorebookData) (cfg : ZLbConfigOut) (dl : List RawVLorebookEntry)
        (parsed : List VLorebookEntryOut),
       reqField r.config validateZLbConfig = some cfg →
       r.data = some dl →
       parseArrayElems validateVLorebookEntry dl = some parsed →
       (((validateVLorebookData r).isSome = true) ↔ (parsed.map (fun e => e.id)).Nodup) ∧
       (∀ out, validateVLorebookData r = some out →
          out.data = parsed ∧ out.data.length = dl.length)) := by
  constructor
  · intro r cfg dl parsed hcfg hdata hparsed
    have hfield : validateZLorebookData r =
        if unique (fun e : ZLorebookEntryOut => e.id) parsed
        then some ⟨cfg, parsed⟩ else none := by
      rw [validateZLorebookData, hcfg]
      simp only [Option.bind_eq_bind, Option.some_bind]
      rw [hdata]
      simp only [defField, validateZLorebookDataField, hparsed]
      by_cases h : unique (fun e : ZLorebookEntryOut => e.id) parsed <;>
        simp [h]
    constructor
    · rw [hfield]
      by_cases h : unique (fun e : ZLorebookEntryOut => e.id) parsed
      · simpa [h] using (unique_eq_true_iff (fun e : ZLorebookEntryOut => e.id) parsed).mp h
      · have : ¬ (parsed.map (fun e : ZLorebookEntryOut => e.id)).Nodup := by
          intro hn
          exact h ((unique_eq_true_iff _ parsed).mpr hn)
        simp [h, this]
    · intro out hout
      rw [hfield] at hout
      by_cases h : unique (fun e : ZLorebookEntryOut => e.id) parsed
      · simp only [h, if_true, Option.some.injEq] at hout
        subst hout
        exact ⟨rfl, parseArrayElems_length _ dl parsed hparsed⟩
      · simp [h] at hout
  · intro r cfg dl parsed hcfg hdata hparsed
    have hfield : validateVLorebookData r =
        if vLorebookDupCheck parsed then some ⟨cfg, parsed⟩ else none := by
      rw [validateVLorebookData, hcfg]
      simp only [Option.bind_eq_bind, Option.some_bind]
      rw [hdata]
      simp only [defField, validateVLorebookDataField, hparsed]
      by_cases h : vLorebookDupCheck parsed <;> simp [h]
    have hcheck : vLorebookDupCheck parsed = true ↔
        (parsed.map (fun e => e.id)).Nodup := by
      rw [vLorebookDupCheck, beq_iff_eq]
      constructor
      · intro h
        exact (jsSetSize_eq_length_iff _).mp h.symm
      · intro h
        exact ((jsSetSize_eq_length_iff _).mpr h).symm
    constructor
    · rw [hfield]
      by_cases h : vLorebookDupCheck parsed
      · simpa [h] using hcheck.mp h
      · have : ¬ (parsed.map (fun e : VLorebookEntryOut => e.id)).Nodup := by
          intro hn
          exact h (hcheck.mpr hn)
        simp [h, this]
    · intro out hout
      rw [hfield] at hout
      by_cases h : vLorebookDupCheck parsed
      · simp only [h, if_true, Option.some.injEq] at hout
        subst hout
        exact ⟨rfl, parseArrayElems_length _ dl parsed hparsed⟩
      · simp [h] at hout

/-- C1 witness: a concrete zod `LorebookData` input with pairwise distinct
ids, the hypotheses of `lorebookData_duplicate_id_validation` discharged
at it, and the instantiated conclusion. -/
theorem lorebookData_duplicate_id_validation_witness :
    reqField zLorebookW.config validateZLbConfig = some ⟨5⟩ ∧
    zLorebookW.data = some [zEntryA, zEntryB] ∧
    parseArrayElems validateZLorebookEntry [zEntryA, zEntryB] = some zParsedW ∧
    ((((validateZLorebookData zLorebookW).isSome = true) ↔
        (zParsedW.map (fun e => e.id)).Nodup) ∧
     (∀ out, validateZLorebookData zLorebookW = some out →
        out.data = zParsedW ∧ out.data.length = [zEntryA, zEntryB].length)) :=
  ⟨by decide, by decide, by decide,
    lorebookData_duplicate_id_validation.1 zLorebookW ⟨5⟩ [zEntryA, zEntryB] zParsedW
      (by decide) (by decide) (by decide)⟩

/-- C2 (code-bug evidence): `ReplaceHookSchema` as written declares its four
hook-kind arrays without `.default([])`, so validating `{}` fails instead of
producing four empty sequences (the repository's own test expects
`ReplaceHookSchema.parse({})` to succeed with four arrays). -/
theorem replaceHook_empty_object_fails :
    validateReplaceHook emptyRawReplaceHook = none := by
  rfl

/-- C10: `unique(key)` is true iff the key values are pairwise distinct
under SameValueZero set membership; an array with two elements that both
lack the key (both reading `undefined`) is rejected as a duplicate; in
particular the valibot `LorebookData` whose `data` has two id-less entries
fails validation. -/
theorem unique_pairwise_distinct :
    (∀ (α κ : Type) (_inst : DecidableEq κ) (proj : α → κ) (l : List α),
       unique proj l = true ↔ (l.map proj).Nodup) ∧
    (∀ (α : Type) (proj : α → Option String) (l₁ l₂ l₃ : List α) (a b : α),
       proj a = none → proj b = none →
       unique proj (l₁ ++ a :: l₂ ++ b :: l₃) = false) ∧
    validateVLorebookData vNoIdLorebookW = none := by
  refine ⟨fun α κ _inst proj l => unique_eq_true_iff proj l, ?_, by decide⟩
  intro α proj l₁ l₂ l₃ a b ha hb
  by_contra h
  have htrue : unique proj (l₁ ++ a :: l₂ ++ b :: l₃) = true := by
    cases hu : unique proj (l₁ ++ a :: l₂ ++ b :: l₃) with
    | false => exact absurd hu h
    | true => rfl
  have hnodup := (unique_eq_true_iff proj _).mp htrue
  have s1 : List.Sublist [(none : Option String)] ((a :: l₂).map proj) := by
    rw [List.map_cons, ha]
    exact (List.nil_sublist _).cons₂ none
  have s2 : List.Sublist [(none : Option String)] ((b :: l₃).map proj) := by
    rw [List.map_cons, hb]
    exact (List.nil_sublist _).cons₂ none
  have s : List.Sublist [(none : Option String), none]
      ((l₁ ++ a :: l₂ ++ b :: l₃).map proj) := by
    rw [List.map_append, List.map_append]
    have sleft : List.Sublist [(none : Option String)] (l₁.map proj ++ (a :: l₂).map proj) :=
      s1.trans (List.sublist_append_right _ _)
    simpa using sleft.append s2
  exact (List.nodup_iff_sublist.mp hnodup none) s

/-- C10 witness: the second conjunct of `unique_pairwise_distinct` applied
at a concrete array with two key-less elements. -/
theorem unique_pairwise_distinct_witness :
    (fun x : Option String => x) (none : Option String) = none ∧
    unique (fun x : Option String => x)
      ([] ++ (none : Option String) :: [some "x"] ++ none :: []) = false :=
  ⟨rfl, unique_pairwise_distinct.2.1 (Option String) (fun x => x) [] [some "x"] []
    none none rfl rfl⟩

theorem validateMessage_time_inv (urlOk : String → Bool) (t₁ t₂ : ℚ) (m : RawMessage)
    (h : m.timestamp.isSome = true) :
    validateMessage urlOk t₁ m = validateMessage urlOk t₂ m := by
  cases hts : m.timestamp with
  | none => rw [hts] at h; simp at h
  | some x => simp [validateMessage, defField, hts]

theorem parseMsgs_time_inv (urlOk : String → Bool) (t₁ t₂ : ℚ) :
    ∀ (l : List RawMessage), (∀ mm ∈ l, mm.timestamp.isSome = true) →
      parseArrayElems (validateMessage urlOk t₁) l =
        parseArrayElems (validateMessage urlOk t₂) l := by
  intro l
  induction l with
  | nil => intro _; rfl
  | cons x xs ih =>
    intro h
    have hx := h x (List.mem_cons_self x xs)
    have hxs := ih (fun mm hm => h mm (List.mem_cons_of_mem x hm))
    rw [parseArrayElems, parseArrayElems,
      validateMessage_time_inv urlOk t₁ t₂ x hx, hxs]

/-- C3 counterexample: validation is not a pure function of the input value
alone.  The shape-valid message `msgNoTs` omits the defaulted `timestamp`
field; validating it at clock reading 0 and at clock reading 1 (two calls
at different times) yields different results, because the `Date.now`
default is computed at validation time. -/
theorem validation_not_pure_counterexample :
    validateMessage urlAlways 0 msgNoTs ≠ validateMessage urlAlways 1 msgNoTs := by
  decide

/-- C3 amended: validation is a pure function of the input value and the
validation-time clock reading; in particular the result is independent of
the clock whenever the dynamically-defaulted fields are supplied — for
`MessageSchema` when `timestamp` is present, for `ChatSchema` when
`createdAt` and `updatedAt` are present and every supplied message carries
its `timestamp`. -/
theorem validation_pure_modulo_clock :
    (∀ (urlOk : String → Bool) (t₁ t₂ : ℚ) (m : RawMessage),
       m.timestamp.isSome = true →
       validateMessage urlOk t₁ m = validateMessage urlOk t₂ m) ∧
    (∀ (urlOk : String → Bool) (t₁ t₂ : ℚ) (c : RawChat) (msgs : List RawMessage),
       c.messages = some msgs →
       (∀ mm ∈ msgs, mm.timestamp.isSome = true) →
       c.createdAt.isSome = true → c.updatedAt.isSome = true →
       validateChat urlOk t₁ c = validateChat urlOk t₂ c) := by
  constructor
  · exact validateMessage_time_inv
  · intro urlOk t₁ t₂ c msgs hm hmsgs hca hua
    cases hca' : c.createdAt with
    | none => rw [hca'] at hca; simp at hca
    | some x =>
      cases hua' : c.updatedAt with
      | none => rw [hua'] at hua; simp at hua
      | some y =>
        have hinv := parseMsgs_time_inv urlOk t₁ t₂ msgs hmsgs
        simp [validateChat, reqField, defField, hm, hca', hua', hinv]

/-- C3 witness: the clauses of `validation_pure_modulo_clock` applied at a
concrete message / chat supplying the dynamically-defaulted fields. -/
theorem validation_pure_modulo_clock_witness :
    msgTs.timestamp.isSome = true ∧
    validateMessage urlAlways 0 msgTs = validateMessage urlAlways 7 msgTs ∧
    validateChat urlAlways 0 chatTs = validateChat urlAlways 7 chatTs :=
  ⟨by decide,
    validation_pure_modulo_clock.1 urlAlways 0 7 msgTs (by decide),
    validation_pure_modulo_clock.2 urlAlways 0 7 chatTs [msgTs]
      (by decide) (by decide) (by decide) (by decide)⟩

theorem not_nodup_map_split {α β : Type} (f : α → β) (l₁ l₂ l₃ : List α) (a b : α)
    (h : f a = f b) : ¬ ((l₁ ++ a :: l₂ ++ b :: l₃).map f).Nodup := by
  intro hnodup
  have s1 : List.Sublist [f a] ((a :: l₂).map f) := by
    rw [List.map_cons]
    exact (List.nil_sublist _).cons₂ (f a)
  have s2 : List.Sublist [f b] ((b :: l₃).map f) := by
    rw [List.map_cons]
    exact (List.nil_sublist _).cons₂ (f b)
  have s : List.Sublist [f a, f a] ((l₁ ++ a :: l₂ ++ b :: l₃).map f) := by
    rw [List.map_append, List.map_append]
    have sleft : List.Sublist [f a] (l₁.map f ++ (a :: l₂).map f) :=
      s1.trans (List.sublist_append_right _ _)
    have hb2 := sleft.append s2
    rw [← h] at hb2
    exact hb2
  exact (List.nodup_iff_sublist.mp hnodup (f a)) s

theorem checkDupLoop_error (ctx : String) :
    ∀ (l : List SchemaEntry) (seen : List String),
      (¬ (l.map (fun e => e.typeName)).Nodup ∨
        ∃ t, t ∈ l.map (fun e => e.typeName) ∧ t ∈ seen) →
      ∃ t, checkDupLoop ctx l seen = .error (.duplicateTypeName ctx t) := by
  intro l
  induction l with
  | nil =>
    intro seen h
    rcases h with h | ⟨t, ht, _⟩
    · simp at h
    · simp at ht
  | cons e rest ih =>
    intro seen h
    by_cases hc : e.typeName ∈ seen
    · exact ⟨e.typeName, by simp [checkDupLoop, hc]⟩
    · have hstep : checkDupLoop ctx (e :: rest) seen =
          checkDupLoop ctx rest (e.typeName :: seen) := by
        simp [checkDupLoop, hc]
      rcases h with h | ⟨t, ht, hseen⟩
      · by_cases hmem : e.typeName ∈ rest.map (fun e => e.typeName)
        · obtain ⟨t, h'⟩ := ih (e.typeName :: seen)
            (Or.inr ⟨e.typeName, hmem, List.mem_cons_self _ _⟩)
          exact ⟨t, by rw [hstep]; exact h'⟩
        · have hrest : ¬ (rest.map (fun e => e.typeName)).Nodup := by
            intro hn
            exact h (List.nodup_cons.mpr ⟨hmem, hn⟩)
          obtain ⟨t, h'⟩ := ih (e.typeName :: seen) (Or.inl hrest)
          exact ⟨t, by rw [hstep]; exact h'⟩
      · rcases List.mem_cons.mp ht with heq | hmem'
        · rw [heq] at hseen
          exact absurd hseen hc
        · obtain ⟨t', h'⟩ := ih (e.typeName :: seen)
            (Or.inr ⟨t, hmem', List.mem_cons_of_mem _ hseen⟩)
          exact ⟨t', by rw [hstep]; exact h'⟩

theorem extractEntriesLoop_error_of_bad (ctx name : String) :
    ∀ exports : List (String × Bool),
      jsEndsWith name SCHEMA_EXPORT_SUFFIX = true →
      (name, false) ∈ exports →
      ∃ e, extractEntriesLoop ctx exports = .error e := by
  intro exports
  induction exports with
  | nil =>
    intro _ hmem
    simp at hmem
  | cons hd rest ih =>
    intro hsuf hmem
    obtain ⟨n, b⟩ := hd
    rcases List.mem_cons.mp hmem with heq | hmem'
    · injection heq with hn hb
      subst hn
      subst hb
      exact ⟨.notAZodSchema ctx name, by simp [extractEntriesLoop, hsuf]⟩
    · by_cases hn : jsEndsWith n SCHEMA_EXPORT_SUFFIX
      · cases b with
        | false =>
          exact ⟨.notAZodSchema ctx n, by simp [extractEntriesLoop, hn]⟩
        | true =>
          cases hd' : deriveTypeName n with
          | error e => exact ⟨e, by simp [extractEntriesLoop, hn, hd']⟩
          | ok t =>
            obtain ⟨e, he⟩ := ih hsuf hmem'
            exact ⟨e, by simp [extractEntriesLoop, hn, hd', he]⟩
      · obtain ⟨e, he⟩ := ih hsuf hmem'
        exact ⟨e, by simp [extractEntriesLoop, hn, he]⟩

theorem extract_notAZod_first (ctx name : String) :
    ∀ (pre : List (String × Bool)) (post : List (String × Bool)),
      (∀ p ∈ pre, jsEndsWith p.1 SCHEMA_EXPORT_SUFFIX = true →
        p.2 = true ∧ ∃ t, deriveTypeName p.1 = .ok t) →
      jsEndsWith name SCHEMA_EXPORT_SUFFIX = true →
      extractEntriesLoop ctx (pre ++ (name, false) :: post) =
        .error (.notAZodSchema ctx name) := by
  intro pre
  induction pre with
  | nil =>
    intro post _ hsuf
    simp [extractEntriesLoop, hsuf]
  | cons hd rest ih =>
    intro post hpre hsuf
    obtain ⟨n, b⟩ := hd
    have hrec := ih post (fun p hp h => hpre p (List.mem_cons_of_mem _ hp) h) hsuf
    by_cases hn : jsEndsWith n SCHEMA_EXPORT_SUFFIX
    · obtain ⟨hb, t, ht⟩ := hpre (n, b) (List.mem_cons_self _ _) hn
      subst hb
      simp [extractEntriesLoop, hn, ht, hrec]
    · simp [extractEntriesLoop, hn, hrec]

theorem processRun_append :
    ∀ (pre : List ModuleDesc) (m : ModuleDesc) (post : List ModuleDesc) (e : GenError),
      (∀ p ∈ pre, ∃ es, processModule p = .ok es) →
      processModule m = .error e →
      processRun (pre ++ m :: post) = ((processRun pre).1, some e) := by
  intro pre
  induction pre with
  | nil =>
    intro m post e _ hm
    simp [processRun, hm]
  | cons p rest ih =>
    intro m post e hpre hm
    obtain ⟨es, hes⟩ := hpre p (List.mem_cons_self _ _)
    have hrec := ih m post e (fun q hq => hpre q (List.mem_cons_of_mem _ hq)) hm
    by_cases hemp : es.isEmpty
    · simp [processRun, hes, hemp, hrec]
    · simp [processRun, hes, hemp, hrec]

/-- C6 counterexample: a run over a well-formed module followed by a module
with a non-schema `"Schema"`-suffixed export, in the order `main` produces
(source files are sorted lexicographically before the loop, and
`"v0/Assets.ts" < "v0/Broken.ts"`, the first conjunct).  The run does fail
with an error naming that export and module, but the declaration output of
the earlier module has already been written, so it is not the case that
"no declaration output is produced for the run". -/
theorem generator_partial_output_counterexample :
    goodModule.path.data < badModule.path.data ∧
    processRun [goodModule, badModule] =
      (["v0/Assets.ts"], some (.notAZodSchema "v0/Broken.ts" "BadSchema")) := by
  exact ⟨by decide, by rfl⟩

/-- C6 amended: a `"Schema"`-suffixed export that is not a schema-rule
instance makes schema extraction for its module fail (first conjunct); when
no earlier anomaly in the same module preempts it, the error is the
not-a-schema error naming that export and the module (second conjunct); at
run level the first failing module aborts the run with its error and no
output is produced for the failing module or any later module — output
already written for earlier modules remains (third conjunct). -/
theorem generator_bad_schema_export :
    (∀ (ctx name : String) (exports : List (String × Bool)),
       jsEndsWith name SCHEMA_EXPORT_SUFFIX = true →
       (name, false) ∈ exports →
       ∃ e, extractSchemasOrThrow exports ctx = .error e) ∧
    (∀ (ctx name : String) (pre post : List (String × Bool)),
       (∀ p ∈ pre, jsEndsWith p.1 SCHEMA_EXPORT_SUFFIX = true →
          p.2 = true ∧ ∃ t, deriveTypeName p.1 = .ok t) →
       jsEndsWith name SCHEMA_EXPORT_SUFFIX = true →
       extractSchemasOrThrow (pre ++ (name, false) :: post) ctx =
         .error (.notAZodSchema ctx name)) ∧
    (∀ (pre : List ModuleDesc) (m : ModuleDesc) (post : List ModuleDesc) (e : GenError),
       (∀ p ∈ pre, ∃ es, processModule p = .ok es) →
       processModule m = .error e →
       processRun (pre ++ m :: post) = ((processRun pre).1, some e)) := by
  refine ⟨?_, ?_, processRun_append⟩
  · intro ctx name exports hsuf hmem
    obtain ⟨e, he⟩ := extractEntriesLoop_error_of_bad ctx name exports hsuf hmem
    exact ⟨e, by simp [extractSchemasOrThrow, he]⟩
  · intro ctx name pre post hpre hsuf
    have h := extract_notAZod_first ctx name pre post hpre hsuf
    simp [extractSchemasOrThrow, h]

/-- C6 witness: the run-level clause of `generator_bad_schema_export`
applied to the concrete two-module run. -/
theorem generator_bad_schema_export_witness :
    processModule badModule = .error (.notAZodSchema "v0/Broken.ts" "BadSchema") ∧
    processRun [goodModule, badModule] =
      ((processRun [goodModule]).1, some (.notAZodSchema "v0/Broken.ts" "BadSchema")) :=
  ⟨by rfl,
    generator_bad_schema_export.2.2 [goodModule] badModule []
      (.notAZodSchema "v0/Broken.ts" "BadSchema")
      (by
        intro p hp
        rw [List.mem_singleton] at hp
        subst hp
        exact ⟨[⟨"Good", "GoodSchema"⟩], by rfl⟩)
      (by rfl)⟩

/-- C7: if two distinct schema exports of one module derive the identical
type name, schema extraction for that module fails with a duplicate-name
error instead of emitting one declaration silently overwriting the other. -/
theorem extract_duplicate_derived_name :
    ∀ (exports : List (String × Bool)) (ctx : String)
      (entries l₁ l₂ l₃ : List SchemaEntry) (e₁ e₂ : SchemaEntry),
      extractEntriesLoop ctx exports = .ok entries →
      entries = l₁ ++ e₁ :: l₂ ++ e₂ :: l₃ →
      e₁.typeName = e₂.typeName →
      ∃ t, extractSchemasOrThrow exports ctx = .error (.duplicateTypeName ctx t) := by
  intro exports ctx entries l₁ l₂ l₃ e₁ e₂ hloop hsplit heq
  have hnd : ¬ (entries.map (fun e => e.typeName)).Nodup := by
    rw [hsplit]
    exact not_nodup_map_split _ l₁ l₂ l₃ e₁ e₂ heq
  have hperm : List.Perm (sortEntries entries) entries :=
    List.perm_insertionSort _ entries
  have hnd' : ¬ ((sortEntries entries).map (fun e => e.typeName)).Nodup := by
    intro h
    exact hnd ((hperm.map (fun e => e.typeName)).nodup_iff.mp h)
  obtain ⟨t, ht⟩ := checkDupLoop_error ctx (sortEntries entries) [] (Or.inl hnd')
  exact ⟨t, by simp [extractSchemasOrThrow, hloop, ht]⟩

/-- C7 witness: a module exporting `FooSchema` and `fooSchema`, which both
derive the type name `Foo`. -/
theorem extract_duplicate_derived_name_witness :
    extractEntriesLoop "v0/Dup.ts" [("FooSchema", true), ("fooSchema", true)] =
      .ok [⟨"Foo", "FooSchema"⟩, ⟨"Foo", "fooSchema"⟩] ∧
    (∃ t, extractSchemasOrThrow [("FooSchema", true), ("fooSchema", true)] "v0/Dup.ts" =
      .error (.duplicateTypeName "v0/Dup.ts" t)) :=
  ⟨by rfl,
    extract_duplicate_derived_name [("FooSchema", true), ("fooSchema", true)] "v0/Dup.ts"
      [⟨"Foo", "FooSchema"⟩, ⟨"Foo", "fooSchema"⟩] [] [] []
      ⟨"Foo", "FooSchema"⟩ ⟨"Foo", "fooSchema"⟩ (by rfl) (by rfl) (by rfl)⟩

/-- C8: `deriveTypeName` strips a trailing `"Schema"` suffix when present
and upper-cases the first letter of the remainder; a reserved platform type
name gets the suffix `"Type"`; an empty remainder or an invalid derived
identifier is an error; `"CharacterSchema"` derives `"Character"` and the
export name `"Schema"` alone fails. -/
theorem deriveTypeName_spec :
    (∀ s : String, s ≠ "" → stripSchemaSuffix s = "" →
       deriveTypeName s = .error (.emptyAfterStrip s)) ∧
    (∀ s : String, s ≠ "" → stripSchemaSuffix s ≠ "" →
       jsUpperFirst (stripSchemaSuffix s) ∈ RESERVED_TYPE_NAMES →
       deriveTypeName s = .ok (jsUpperFirst (stripSchemaSuffix s) ++ "Type")) ∧
    (∀ s : String, s ≠ "" → stripSchemaSuffix s ≠ "" →
       jsUpperFirst (stripSchemaSuffix s) ∉ RESERVED_TYPE_NAMES →
       isValidTsIdentifier (jsUpperFirst (stripSchemaSuffix s)) = true →
       deriveTypeName s = .ok (jsUpperFirst (stripSchemaSuffix s))) ∧
    (∀ s : String, s ≠ "" → stripSchemaSuffix s ≠ "" →
       jsUpperFirst (stripSchemaSuffix s) ∉ RESERVED_TYPE_NAMES →
       isValidTsIdentifier (jsUpperFirst (stripSchemaSuffix s)) = false →
       deriveTypeName s = .error (.invalidIdentifier (jsUpperFirst (stripSchemaSuffix s)) s)) ∧
    deriveTypeName "CharacterSchema" = .ok "Character" ∧
    (∃ e, deriveTypeName "Schema" = .error e) := by
  refine ⟨?_, ?_, ?_, ?_, by rfl, ⟨.emptyAfterStrip "Schema", by rfl⟩⟩
  · intro s h1 h2
    simp [deriveTypeName, h1, h2]
  · intro s h1 h2 h3
    simp [deriveTypeName, h1, h2, h3]
  · intro s h1 h2 h3 h4
    simp [deriveTypeName, h1, h2, h3, h4]
  · intro s h1 h2 h3 h4
    simp [deriveTypeName, h1, h2, h3, h4]

/-- C8 witness: the reserved-name clause of `deriveTypeName_spec` applied
at the export name `"dateSchema"`, which derives `"Date"` and is
disambiguated to `"DateType"`. -/
theorem deriveTypeName_spec_witness :
    stripSchemaSuffix "dateSchema" ≠ "" ∧
    deriveTypeName "dateSchema" =
      .ok (jsUpperFirst (stripSchemaSuffix "dateSchema") ++ "Type") :=
  ⟨by decide, deriveTypeName_spec.2.1 "dateSchema" (by decide) (by decide) (by decide)⟩

/-- C9 counterexample: the predicate `(v) => v instanceof WeakMap` rejects
every sample value (so probing fails) and is not recognized as a pure
refinement (its source contains `instanceof`), so by the claimed resolution
order override construction must fail with an error; instead the
generator's source-text last resort sees `instanceof` in the predicate
source and silently resolves the override to `Uint8Array`. -/
theorem override_fnstr_heuristic_counterexample :
    resolveNodeOverride "module v0/utils.ts" (.custom wkDesc) =
      .ok (some (.typeRef "Uint8Array")) ∧
    probeOverride wkObs = none ∧
    isLikelyRefinement wkObs = false := by
  refine ⟨by rfl, by rfl, by rfl⟩

/-- C9 amended: the override resolution order, with the additional
source-text heuristic the code applies between sample probing and the
refinement skip: explicit `tsType` always wins; then structural detection
via stored check descriptors (`Uint8Array`, `ArrayBuffer`) or the stored
class reference (`Date` via `def.cls`); then sample probing of the
predicate; a predicate whose source text mentions a known constructor name
or `instanceof` is resolved to the first matching known constructor; a
predicate recognized as a pure refinement contributes no override and is
skipped without error; otherwise resolution fails with the
supply-an-explicit-override error. -/
theorem override_resolution_order :
    (∀ (ctx t : String) (d : CustomSchemaDesc),
       d.tsType = some t → ¬ jsTrim t = "" →
       resolveNodeOverride ctx (.custom d) = .ok (some (.parsedTsType (jsTrim t)))) ∧
    (∀ (ctx : String) (d : CustomSchemaDesc),
       tsTypeOverride d = none →
       matchesInstanceofViaDefChecks d .uint8ArrayCtor = true →
       resolveNodeOverride ctx (.custom d) = .ok (some (.typeRef "Uint8Array"))) ∧
    (∀ (ctx : String) (d : CustomSchemaDesc),
       tsTypeOverride d = none →
       matchesInstanceofViaDefChecks d .uint8ArrayCtor = false →
       matchesInstanceofViaDefChecks d .arrayBufferCtor = false →
       d.cls = some .dateCtor →
       resolveNodeOverride ctx (.custom d) = .ok (some (.typeRef "Date"))) ∧
    (∀ (ctx : String) (d : CustomSchemaDesc) (p : PredObs) (t : TypeNodeModel),
       tsTypeOverride d = none →
       matchesInstanceofViaDefChecks d .uint8ArrayCtor = false →
       matchesInstanceofViaDefChecks d .arrayBufferCtor = false →
       detectInstanceofClass d = none →
       getCustomPredicate d = some p →
       probeOverride p = some t →
       resolveNodeOverride ctx (.custom d) = .ok (some t)) ∧
    (∀ (ctx : String) (d : CustomSchemaDesc) (p : PredObs),
       getCustomOverrideTypeNode d = none →
       getCustomPredicate d = some p →
       isLikelyRefinement p = true →
       resolveNodeOverride ctx (.custom d) = .ok none) ∧
    (∀ (ctx : String) (d : CustomSchemaDesc),
       getCustomOverrideTypeNode d = none →
       ((∃ p, getCustomPredicate d = some p ∧ isLikelyRefinement p = false) ∨
         getCustomPredicate d = none) →
       resolveNodeOverride ctx (.custom d) = .error (.unsupportedCustomSchema ctx)) ∧
    (∀ (ctx : String) (d : CustomSchemaDesc) (p : PredObs),
       tsTypeOverride d = none →
       matchesInstanceofViaDefChecks d .uint8ArrayCtor = false →
       matchesInstanceofViaDefChecks d .arrayBufferCtor = false →
       d.cls = none → d.fnF = some p →
       (∀ c ∈ KNOWN_CTORS, detectProbeOk p c = false) →
       KNOWN_CTORS.find? (fnStrMatches p.src) = some .uint8ArrayCtor →
       resolveNodeOverride ctx (.custom d) = .ok (some (.typeRef "Uint8Array"))) := by
  refine ⟨?_, ?_, ?_, ?_, ?_, ?_, ?_⟩
  · intro ctx t d h1 h2
    have hts : tsTypeOverride d = some (.parsedTsType (jsTrim t)) := by
      simp [tsTypeOverride, h1, h2, parseTypeNodeFromString]
    simp [resolveNodeOverride, getFormatBasedType, getCustomOverrideTypeNode, hts]
  · intro ctx d h1 h2
    simp [resolveNodeOverride, getFormatBasedType, getCustomOverrideTypeNode, h1, h2]
  · intro ctx d h1 h2 h3 h4
    have hdet : detectInstanceofClass d = some .dateCtor := by
      simp [detectInstanceofClass, h4]
    simp [resolveNodeOverride, getFormatBasedType, getCustomOverrideTypeNode,
      h1, h2, h3, hdet]
  · intro ctx d p t h1 h2 h3 h4 h5 h6
    simp [resolveNodeOverride, getFormatBasedType, getCustomOverrideTypeNode,
      h1, h2, h3, h4, h5, h6]
  · intro ctx d p h1 h2 h3
    simp [resolveNodeOverride, getFormatBasedType, h1, h2, h3]
  · intro ctx d h1 h2
    rcases h2 with ⟨p, hp, href⟩ | hp
    · simp [resolveNodeOverride, getFormatBasedType, h1, hp, href]
    · simp [resolveNodeOverride, getFormatBasedType, h1, hp]
  · intro ctx d p h1 h2 h3 h4 h5 h6 h7
    have hgcp : getCustomPredicate d = some p := by
      simp [getCustomPredicate, h5]
    have hfind : KNOWN_CTORS.find? (detectProbeOk p) = none :=
      List.find?_eq_none.mpr (fun c hc => by simp [h6 c hc])
    have hdet : detectInstanceofClass d = some .uint8ArrayCtor := by
      simp [detectInstanceofClass, h4, hgcp, hfind, h5, h7]
    simp [resolveNodeOverride, getFormatBasedType, getCustomOverrideTypeNode,
      h1, h2, h3, hdet]

/-- C9 witness: the explicit-override clause of `override_resolution_order`
applied at a custom schema carrying `meta.tsType = " Uint8Array "`. -/
theorem override_resolution_order_witness :
    tsTypeDesc.tsType = some " Uint8Array " ∧
    ¬ (jsTrim " Uint8Array " = "") ∧
    resolveNodeOverride "module m" (.custom tsTypeDesc) =
      .ok (some (.parsedTsType (jsTrim " Uint8Array "))) :=
  ⟨rfl, by decide,
    override_resolution_order.1 "module m" " Uint8Array " tsTypeDesc rfl (by decide)⟩

end CharacterSpec
